import Mathlib

/-!
Verification of the s3ttle backend core: conversation store, transcript
service, usage ledger and response orchestrator, shallowly embedded from
the TypeScript sources (SessionStore.ts, MessageService.ts, UsageService.ts,
AIService.ts).  In-memory Maps become functions `String → Option _`,
JavaScript numbers for token counts become `Int` (cost arithmetic is done
in `ℚ`), `Date` timestamps become `Nat` parameters, and the uuid supply
becomes an explicit fresh-id parameter.  Fallible operations return
`Except`.  The per-session promise lock of AIService is modelled twice:
once folded into the sequential turn function, and once as an explicit
interleaving transition system for the concurrency claims.
-/

-- ─── Data model (types/index.ts) ───────────────────────────────────────────

/-- Who can author a message: the two partners, the model, or the reserved
summary placeholder (types/index.ts, MessageAuthor). -/
inductive MessageAuthor where
  | partner_a
  | partner_b
  | ai
  | system_summary
deriving DecidableEq, Repr

/-- A single message in a conversation (types/index.ts, Message). -/
structure Message where
  id : String
  sessionId : String
  author : MessageAuthor
  content : String
  createdAt : Nat
deriving DecidableEq, Repr

/-- A decision session (types/index.ts, Session). -/
structure Session where
  id : String
  topic : String
  createdAt : Nat
deriving DecidableEq, Repr

/-- Structured data extracted from the model response (types/index.ts,
AIResponse). -/
structure AIResponse where
  content : String
  inputTokens : Int
  outputTokens : Int
deriving DecidableEq, Repr

/-- One record of token usage from a single model call (types/index.ts,
UsageRecord). -/
structure UsageRecord where
  sessionId : String
  inputTokens : Int
  outputTokens : Int
  model : String
  createdAt : Nat
deriving DecidableEq, Repr

/-- Aggregated usage stats for a session (types/index.ts, UsageSummary).
The cost estimate is carried in exact rational arithmetic. -/
structure UsageSummary where
  sessionId : String
  totalInputTokens : Int
  totalOutputTokens : Int
  totalTokens : Int
  apiCalls : Nat
  estimatedCostUsd : ℚ
deriving DecidableEq, Repr

-- ─── Usage ledger (UsageService.ts) ────────────────────────────────────────

/-- The in-memory usage store: `usageStore = new Map<string, UsageRecord[]>()`. -/
structure UsageState where
  store : String → Option (List UsageRecord)

/-- The empty usage store. -/
def UsageState.empty : UsageState := ⟨fun _ => none⟩

/-- `COST_PER_INPUT_TOKEN = 3.0 / 1_000_000` (UsageService.ts). -/
def COST_PER_INPUT_TOKEN : ℚ := 3 / 1000000

/-- `COST_PER_OUTPUT_TOKEN = 15.0 / 1_000_000` (UsageService.ts). -/
def COST_PER_OUTPUT_TOKEN : ℚ := 15 / 1000000

/-- `recordUsage(sessionId, inputTokens, outputTokens, model)` from
UsageService.ts: initialises the array for the session if missing, then
pushes one record.  The source performs no validation and has no error
path; the function is total. -/
def recordUsage (st : UsageState) (sessionId : String)
    (inputTokens outputTokens : Int) (model : String) (now : Nat) : UsageState :=
  let existing := (st.store sessionId).getD []
  ⟨fun k =>
    if k = sessionId then
      some (existing ++ [⟨sessionId, inputTokens, outputTokens, model, now⟩])
    else st.store k⟩

/-- Models `parseFloat(x.toFixed(6))` on an exact rational: round to six
decimal places. -/
def toFixed6 (x : ℚ) : ℚ := (round (x * 1000000) : ℤ) / 1000000

/-- `getSessionUsage(sessionId)` from UsageService.ts: fold the records into
totals, count the calls, and estimate the cost. -/
def getSessionUsage (st : UsageState) (sessionId : String) : UsageSummary :=
  let records := (st.store sessionId).getD []
  let totalInputTokens := records.foldl (fun sum r => sum + r.inputTokens) 0
  let totalOutputTokens := records.foldl (fun sum r => sum + r.outputTokens) 0
  { sessionId := sessionId
    totalInputTokens := totalInputTokens
    totalOutputTokens := totalOutputTokens
    totalTokens := totalInputTokens + totalOutputTokens
    apiCalls := records.length
    estimatedCostUsd := toFixed6
      ((totalInputTokens : ℚ) * COST_PER_INPUT_TOKEN +
        (totalOutputTokens : ℚ) * COST_PER_OUTPUT_TOKEN) }

/-- `getSessionUsageRecords(sessionId)` from UsageService.ts. -/
def getSessionUsageRecords (st : UsageState) (sessionId : String) : List UsageRecord :=
  (st.store sessionId).getD []

-- ─── Conversation store (SessionStore.ts) ──────────────────────────────────

/-- The error thrown by `SessionStore.addMessage` when the session is
missing (`throw new Error(...)` in SessionStore.ts). -/
inductive StoreError where
  | SessionNotFound (sessionId : String)
deriving DecidableEq, Repr

/-- The in-memory store: `sessions = new Map<string, Session>()` and
`messages = new Map<string, Message[]>()` (SessionStore.ts). -/
structure SessionStoreState where
  sessions : String → Option Session
  messages : String → Option (List Message)

/-- The store at server start: both Maps empty. -/
def SessionStoreState.empty : SessionStoreState := ⟨fun _ => none, fun _ => none⟩

namespace SessionStore

/-- `getSession(sessionId)` from SessionStore.ts: pure Map lookup. -/
def getSession (st : SessionStoreState) (sessionId : String) : Option Session :=
  st.sessions sessionId

/-- `createSession(sessionId, topic)` from SessionStore.ts: unconditionally
`sessions.set(...)` and `messages.set(sessionId, [])`, returning the new
Session.  Note the source has no existence check and no error path. -/
def createSession (st : SessionStoreState) (sessionId topic : String) (now : Nat) :
    SessionStoreState × Session :=
  let session : Session := { id := sessionId, topic := topic, createdAt := now }
  (⟨fun k => if k = sessionId then some session else st.sessions k,
    fun k => if k = sessionId then some [] else st.messages k⟩, session)

/-- `addMessage(sessionId, message)` from SessionStore.ts: throws if the
messages Map has no entry for the session, otherwise pushes to the end. -/
def addMessage (st : SessionStoreState) (sessionId : String) (message : Message) :
    Except StoreError SessionStoreState :=
  match st.messages sessionId with
  | none => .error (.SessionNotFound sessionId)
  | some sessionMessages =>
      .ok ⟨st.sessions,
        fun k => if k = sessionId then some (sessionMessages ++ [message])
                 else st.messages k⟩

/-- `getMessages(sessionId)` from SessionStore.ts: the stored array, or `[]`
when the session is absent. -/
def getMessages (st : SessionStoreState) (sessionId : String) : List Message :=
  (st.messages sessionId).getD []

end SessionStore

/-- The two storage Maps of SessionStore.ts stay key-synchronised: every
state reachable through the store operations has a sessions entry exactly
where it has a messages entry. -/
def WF (st : SessionStoreState) : Prop :=
  ∀ k, (st.sessions k).isSome ↔ (st.messages k).isSome

-- ─── Transcript service (MessageService.ts) ────────────────────────────────

/-- `saveMessage(sessionId, author, content, topic?)` from MessageService.ts:
auto-creates the session (topic defaulting to "Untitled Decision") when
absent, then builds the Message with a fresh uuid and the current time and
appends it through `SessionStore.addMessage`.  The uuid and the clock are
passed in as the `freshId` and `now` parameters. -/
def saveMessage (st : SessionStoreState) (sessionId : String) (author : MessageAuthor)
    (content : String) (topic : Option String) (freshId : String) (now : Nat) :
    Except StoreError (SessionStoreState × Message) :=
  let st1 :=
    if (SessionStore.getSession st sessionId).isNone then
      (SessionStore.createSession st sessionId (topic.getD "Untitled Decision") now).1
    else st
  let message : Message :=
    { id := freshId, sessionId := sessionId, author := author,
      content := content, createdAt := now }
  (SessionStore.addMessage st1 sessionId message).map fun st2 => (st2, message)

/-- `getConversationHistory(sessionId)` from MessageService.ts: currently
returns all stored messages. -/
def getConversationHistory (st : SessionStoreState) (sessionId : String) : List Message :=
  SessionStore.getMessages st sessionId

-- ─── Response orchestrator (AIService.ts) ──────────────────────────────────

/-- `AI_MODEL` from AIService.ts. -/
def AI_MODEL : String := "claude-sonnet-4-5-20250929"

/-- The request shape of the external model API: a two-valued role. -/
inductive Role where
  | user
  | assistant
deriving DecidableEq, Repr

/-- One turn of the request sent to the model (Anthropic.MessageParam). -/
structure MessageParam where
  role : Role
  content : String
deriving DecidableEq, Repr

/-- One content block of the model's reply; the source inspects
`block.type === 'text'` and then reads `block.text`. -/
structure ContentBlock where
  type : String
  text : String
deriving DecidableEq, Repr

/-- The token counts the model call reports (`response.usage`). -/
structure ModelUsage where
  input_tokens : Int
  output_tokens : Int
deriving DecidableEq, Repr

/-- The model's reply: ordered content blocks plus usage. -/
structure ModelResponse where
  content : List ContentBlock
  usage : ModelUsage
deriving DecidableEq, Repr

/-- An error propagating out of one turn: either the model call failed (the
awaited API call threw) or the store threw. -/
inductive TurnError where
  | modelCallFailed (msg : String)
  | storeError (e : StoreError)
deriving DecidableEq, Repr

/-- `formatMessagesForClaude(messages)` from AIService.ts: ai messages map
to the assistant role unchanged; every other author maps to the user role
with a partner label prefixed to the content. -/
def formatMessagesForClaude (messages : List Message) : List MessageParam :=
  messages.map fun msg =>
    if msg.author = MessageAuthor.ai then
      { role := Role.assistant, content := msg.content }
    else
      let label := if msg.author = MessageAuthor.partner_a then "Partner A" else "Partner B"
      { role := Role.user, content := label ++ ": " ++ msg.content }

/-- Step 4 of `getAIResponse`: `response.content.find(b => b.type === 'text')`
and `textBlock ? textBlock.text : ''`. -/
def extractText (response : ModelResponse) : String :=
  match response.content.find? (fun block => block.type = "text") with
  | some textBlock => textBlock.text
  | none => ""

/-- The whole backend state getAIResponse touches: the conversation store,
the usage store, and the presence of a `sessionLocks` entry per session. -/
structure ServerState where
  store : SessionStoreState
  usage : UsageState
  locks : String → Bool

/-- `getAIResponse(sessionId)` from AIService.ts, as one sequential turn:
the outcome of the awaited model call is the `modelResult` parameter
(`.error` when the API call threw).  Entry sets the session's lock entry;
the try block reads history, extracts the reply text, records usage and
saves the ai message; the finally branch resolves and deletes the lock
entry on every path.  (The interleaving of concurrent calls around the
lock is modelled separately below.) -/
def getAIResponse (st : ServerState) (sessionId : String)
    (modelResult : Except String ModelResponse) (freshId : String) (now : Nat) :
    ServerState × Except TurnError AIResponse :=
  let st1 : ServerState :=
    { st with locks := fun k => if k = sessionId then true else st.locks k }
  let release : ServerState → ServerState := fun s =>
    { s with locks := fun k => if k = sessionId then false else s.locks k }
  match modelResult with
  | .error e => (release st1, .error (.modelCallFailed e))
  | .ok response =>
      let aiContent := extractText response
      let usage1 := recordUsage st1.usage sessionId
        response.usage.input_tokens response.usage.output_tokens AI_MODEL now
      match saveMessage st1.store sessionId MessageAuthor.ai aiContent none freshId now with
      | .error e => (release { st1 with usage := usage1 }, .error (.storeError e))
      | .ok (store1, _msg) =>
          (release { st1 with usage := usage1, store := store1 },
            .ok { content := aiContent,
                  inputTokens := response.usage.input_tokens,
                  outputTokens := response.usage.output_tokens })

-- ─── The lock-acquisition protocol of AIService.ts, as a transition system ─

/-- Program counter of one in-flight `getAIResponse` call for a fixed
session, tracking only the lock protocol of AIService.ts lines 117-180.
`start` is about to run line 120 (`sessionLocks.get`); `waiting l` is
suspended on line 122 awaiting the promise `l` it read; `critical own` has
executed lines 127-129 (created its own promise `own` and stored it in the
Map) and is inside the try block; `done` has run the finally block. -/
inductive TaskPC where
  | start
  | waiting (l : Nat)
  | critical (own : Nat)
  | done
deriving DecidableEq, Repr

/-- Global state of the lock protocol for one session: the program counter
of every in-flight call, the session's `sessionLocks` entry (the id of the
promise currently stored, if any), the set of promises already resolved,
and a supply of fresh promise ids. -/
structure LockSystem where
  tasks : List TaskPC
  sessionLock : Option Nat
  resolved : List Nat
  nextLock : Nat
deriving DecidableEq, Repr

/-- One interleaving step of the lock protocol, following the atomicity of
the JavaScript event loop: code between two awaits runs without
interruption.
* `checkBusy`: line 120 reads an existing lock and the task begins awaiting
  it (line 122).
* `checkFree`: line 120 finds no entry, so lines 127-129 run in the same
  synchronous slice: the task creates its own promise, stores it in the
  Map and enters the try block.
* `resume`: a task awaiting promise `l` can only be scheduled after `l`
  has resolved; its continuation (lines 127-129) then creates its own
  promise, stores it — overwriting whatever entry is present — and enters
  the try block.  Note the code does not re-read the Map here.
* `finish`: the finally block (lines 173-179) resolves the task's promise
  and deletes the session's Map entry, whatever it currently holds. -/
inductive LockStep : LockSystem → LockSystem → Prop where
  | checkBusy (s : LockSystem) (i l : Nat) :
      s.tasks.get? i = some TaskPC.start →
      s.sessionLock = some l →
      LockStep s { s with tasks := s.tasks.set i (TaskPC.waiting l) }
  | checkFree (s : LockSystem) (i : Nat) :
      s.tasks.get? i = some TaskPC.start →
      s.sessionLock = none →
      LockStep s { tasks := s.tasks.set i (TaskPC.critical s.nextLock),
                   sessionLock := some s.nextLock,
                   resolved := s.resolved,
                   nextLock := s.nextLock + 1 }
  | resume (s : LockSystem) (i l : Nat) :
      s.tasks.get? i = some (TaskPC.waiting l) →
      l ∈ s.resolved →
      LockStep s { tasks := s.tasks.set i (TaskPC.critical s.nextLock),
                   sessionLock := some s.nextLock,
                   resolved := s.resolved,
                   nextLock := s.nextLock + 1 }
  | finish (s : LockSystem) (i own : Nat) :
      s.tasks.get? i = some (TaskPC.critical own) →
      LockStep s { tasks := s.tasks.set i TaskPC.done,
                   sessionLock := none,
                   resolved := own :: s.resolved,
                   nextLock := s.nextLock }

/-- Whether a task is past lock acquisition (inside the try block). -/
def TaskPC.isCritical : TaskPC → Bool
  | TaskPC.critical _ => true
  | _ => false

/-- How many in-flight calls for the session are past lock acquisition. -/
def criticalCount (s : LockSystem) : Nat :=
  (s.tasks.filter TaskPC.isCritical).length

/-- At most one call for the session is past lock acquisition. -/
def MutualExclusion (s : LockSystem) : Prop := criticalCount s ≤ 1

/-- Three concurrent calls for the same session, none yet started. -/
def threeCalls : LockSystem :=
  { tasks := [TaskPC.start, TaskPC.start, TaskPC.start],
    sessionLock := none, resolved := [], nextLock := 0 }

/-- The state reached when, after the first holder exits, both queued
calls have been admitted: two tasks are simultaneously in the critical
section. -/
def raceState : LockSystem :=
  { tasks := [TaskPC.done, TaskPC.critical 1, TaskPC.critical 2],
    sessionLock := some 2, resolved := [0], nextLock := 3 }

-- ─── Concrete stores used by counterexamples and witnesses ────────────────

/-- A concrete store holding session "s1" (topic "t1") with one message. -/
def c2Msg : Message :=
  { id := "m1", sessionId := "s1", author := MessageAuthor.partner_a,
    content := "hello", createdAt := 1 }

/-- The store after `createSession("s1","t1")` at time 0. -/
def c2Store0 : SessionStoreState :=
  (SessionStore.createSession SessionStoreState.empty "s1" "t1" 0).1

/-- The store after additionally appending `c2Msg` to "s1". -/
def c2Store1 : SessionStoreState :=
  ((SessionStore.addMessage c2Store0 "s1" c2Msg).toOption).getD SessionStoreState.empty

-- ─── Helper lemmas ─────────────────────────────────────────────────────────

theorem foldl_add_eq_sum (f : UsageRecord → Int) (l : List UsageRecord) (a : Int) :
    l.foldl (fun sum r => sum + f r) a = a + (l.map f).sum := by
  induction l generalizing a with
  | nil => simp
  | cons hd tl ih => simp only [List.foldl_cons, List.map_cons, List.sum_cons, ih (a + f hd)]; ring

theorem toFixed6_int_combination (i o : Int) :
    toFixed6 ((i : ℚ) * COST_PER_INPUT_TOKEN + (o : ℚ) * COST_PER_OUTPUT_TOKEN) =
      (i : ℚ) * COST_PER_INPUT_TOKEN + (o : ℚ) * COST_PER_OUTPUT_TOKEN := by
  unfold toFixed6 COST_PER_INPUT_TOKEN COST_PER_OUTPUT_TOKEN
  have h : ((i : ℚ) * (3 / 1000000) + (o : ℚ) * (15 / 1000000)) * 1000000
      = ((3 * i + 15 * o : ℤ) : ℚ) := by
    push_cast
    ring
  rw [h, round_intCast]
  push_cast
  ring

-- ─── C5: summary equals term-wise sums over the records ────────────────────

/-- C5: for every record set of a session, including the empty set,
`getSessionUsage` returns total input and output tokens equal to the
term-wise sums of the records' token fields, `totalTokens` equal to their
sum, `apiCalls` equal to the record count, and `estimatedCostUsd` equal to
`totalInputTokens * priceIn + totalOutputTokens * priceOut` (all fields
zero when no records exist, since every sum over `[]` is zero). -/
theorem getSessionUsage_is_termwise_sum (st : UsageState) (s : String) :
    getSessionUsage st s =
      { sessionId := s
        totalInputTokens := ((getSessionUsageRecords st s).map UsageRecord.inputTokens).sum
        totalOutputTokens := ((getSessionUsageRecords st s).map UsageRecord.outputTokens).sum
        totalTokens := ((getSessionUsageRecords st s).map UsageRecord.inputTokens).sum +
          ((getSessionUsageRecords st s).map UsageRecord.outputTokens).sum
        apiCalls := (getSessionUsageRecords st s).length
        estimatedCostUsd :=
          (((getSessionUsageRecords st s).map UsageRecord.inputTokens).sum : ℚ) *
              COST_PER_INPUT_TOKEN +
            (((getSessionUsageRecords st s).map UsageRecord.outputTokens).sum : ℚ) *
              COST_PER_OUTPUT_TOKEN } := by
  unfold getSessionUsage getSessionUsageRecords
  simp only [foldl_add_eq_sum UsageRecord.inputTokens,
    foldl_add_eq_sum UsageRecord.outputTokens, zero_add,
    toFixed6_int_combination]

-- ─── C3: recordUsage never validates, never fails ──────────────────────────

/-- C3 counterexample: the claim says `recordUsage` fails with
`InvalidUsage` when a token count is negative.  In the source the function
has no validation and no error path at all: calling it with
`inputTokens = -1` on the empty store succeeds and appends one record, and
the summary afterwards counts one api call. -/
theorem recordUsage_negative_appends_cex :
    (recordUsage UsageState.empty "s1" (-1) 0 "m" 0).store "s1" =
      some [{ sessionId := "s1", inputTokens := -1, outputTokens := 0,
              model := "m", createdAt := 0 }] ∧
    (getSessionUsage (recordUsage UsageState.empty "s1" (-1) 0 "m" 0) "s1").apiCalls = 1 := by
  constructor
  · simp [recordUsage, UsageState.empty]
  · simp [recordUsage, getSessionUsage, UsageState.empty]

/-- C3 (amended): `recordUsage(sessionId, inputTokens, outputTokens, model)`
performs no validation and never fails: for every pair of token counts,
negative ones included, it succeeds and appends exactly one Usage Record
for the session, leaving every other session's records unchanged. -/
theorem recordUsage_always_appends_one (st : UsageState) (s : String)
    (i o : Int) (m : String) (now : Nat) :
    ∀ k, (recordUsage st s i o m now).store k =
      if k = s then
        some (getSessionUsageRecords st s ++
          [{ sessionId := s, inputTokens := i, outputTokens := o,
             model := m, createdAt := now }])
      else st.store k := by
  intro k
  simp [recordUsage, getSessionUsageRecords]

-- ─── C2: duplicate createSession ───────────────────────────────────────────

/-- C2 counterexample: the claim says a second `createSession` for an id
already in the store fails with `AlreadyExists` and leaves the existing
record and message sequence unchanged.  In the source `createSession` has
no existence check and no error path: with "s1" present (topic "t1", one
stored message), a second call with topic "t2" succeeds, returns and
stores a fresh session record, and resets the message sequence to empty. -/
theorem createSession_twice_overwrites_cex :
    SessionStore.addMessage c2Store0 "s1" c2Msg = .ok c2Store1 ∧
    SessionStore.getSession c2Store1 "s1" = some { id := "s1", topic := "t1", createdAt := 0 } ∧
    SessionStore.getMessages c2Store1 "s1" = [c2Msg] ∧
    (SessionStore.createSession c2Store1 "s1" "t2" 5).2 =
      { id := "s1", topic := "t2", createdAt := 5 } ∧
    SessionStore.getSession (SessionStore.createSession c2Store1 "s1" "t2" 5).1 "s1" =
      some { id := "s1", topic := "t2", createdAt := 5 } ∧
    SessionStore.getMessages (SessionStore.createSession c2Store1 "s1" "t2" 5).1 "s1" = [] := by
  refine ⟨rfl, ?_, ?_, rfl, ?_, ?_⟩ <;>
    simp [c2Store1, c2Store0, SessionStore.addMessage, SessionStore.createSession,
      SessionStore.getSession, SessionStore.getMessages, SessionStoreState.empty,
      Except.toOption]

/-- C2 (amended): `createSession(id, topic)` never fails; called again for
an id already present (indeed, for any id) it unconditionally replaces the
session record with a fresh one carrying the new topic and timestamp and
resets the id's message sequence to empty, leaving every other session and
its messages unchanged. -/
theorem createSession_twice_resets (st : SessionStoreState) (id topic : String) (now : Nat) :
    (SessionStore.createSession st id topic now).2 =
      { id := id, topic := topic, createdAt := now } ∧
    ∀ k,
      (SessionStore.createSession st id topic now).1.sessions k =
        (if k = id then some { id := id, topic := topic, createdAt := now }
         else st.sessions k) ∧
      (SessionStore.createSession st id topic now).1.messages k =
        (if k = id then some [] else st.messages k) := by
  exact ⟨rfl, fun k => ⟨rfl, rfl⟩⟩

-- ─── C9: addMessage errors exactly on missing sessions ─────────────────────

/-- Unfolding `addMessage` when the messages Map has an entry. -/
theorem addMessage_of_some (st : SessionStoreState) (s : String) (m : Message)
    (ms : List Message) (h : st.messages s = some ms) :
    SessionStore.addMessage st s m =
      .ok ⟨st.sessions,
        fun k => if k = s then some (ms ++ [m]) else st.messages k⟩ := by
  unfold SessionStore.addMessage
  rw [h]

/-- Unfolding `addMessage` when the messages Map has no entry. -/
theorem addMessage_of_none (st : SessionStoreState) (s : String) (m : Message)
    (h : st.messages s = none) :
    SessionStore.addMessage st s m = .error (.SessionNotFound s) := by
  unfold SessionStore.addMessage
  rw [h]

/-- C9: on a key-synchronised store, `addMessage(sessionId, message)` fails
with `SessionNotFound` exactly when no session exists for `sessionId`;
otherwise it appends the message to the end of that session's sequence,
leaving all earlier messages of the session, all other sessions' message
sequences, and all session records unchanged. -/
theorem addMessage_appends_or_notfound (st : SessionStoreState) (s : String)
    (m : Message) (hwf : WF st) :
    (SessionStore.getSession st s = none →
      SessionStore.addMessage st s m = .error (.SessionNotFound s)) ∧
    ∀ ms, st.messages s = some ms →
      SessionStore.addMessage st s m =
        .ok ⟨st.sessions,
          fun k => if k = s then some (ms ++ [m]) else st.messages k⟩ := by
  refine ⟨fun h0 => ?_, fun ms h => addMessage_of_some st s m ms h⟩
  have hm : st.messages s = none := by
    have := (hwf s).symm
    rw [SessionStore.getSession] at h0
    simp [h0] at this
    exact Option.not_isSome_iff_eq_none.mp (by simp [this])
  exact addMessage_of_none st s m hm

/-- C9 witness: on the concrete one-session store, `addMessage` against the
never-created id "zz" fails with `SessionNotFound`, and against "s1" with
messages `[c2Msg]` appends to the end. -/
theorem addMessage_appends_or_notfound_witness :
    SessionStore.addMessage c2Store1 "zz" c2Msg = .error (.SessionNotFound "zz") ∧
    SessionStore.addMessage c2Store1 "s1" c2Msg =
      .ok ⟨c2Store1.sessions,
        fun k => if k = "s1" then some ([c2Msg] ++ [c2Msg]) else c2Store1.messages k⟩ := by
  have hwf : WF c2Store1 := by
    intro k
    by_cases hk : k = "s1" <;>
      simp [c2Store1, c2Store0, SessionStore.addMessage, SessionStore.createSession,
        SessionStoreState.empty, Except.toOption, hk]
  have h := addMessage_appends_or_notfound c2Store1 "zz" c2Msg hwf
  have h2 := addMessage_appends_or_notfound c2Store1 "s1" c2Msg hwf
  refine ⟨h.1 ?_, h2.2 [c2Msg] ?_⟩ <;>
    simp [c2Store1, c2Store0, SessionStore.addMessage, SessionStore.createSession,
      SessionStore.getSession, SessionStoreState.empty, Except.toOption]

-- ─── C6: saveMessage auto-creates and appends exactly one message ──────────

theorem WF.messages_none {st : SessionStoreState} {s : String}
    (hwf : WF st) (h : st.sessions s = none) : st.messages s = none := by
  have h2 := hwf s
  rw [h] at h2
  simp only [Option.isSome_none, Bool.false_eq_true, false_iff] at h2
  exact Option.not_isSome_iff_eq_none.mp h2

theorem WF.messages_some {st : SessionStoreState} {s : String} {sess : Session}
    (hwf : WF st) (h : st.sessions s = some sess) : ∃ ms, st.messages s = some ms := by
  have h2 := hwf s
  rw [h] at h2
  simp only [Option.isSome_some, true_iff] at h2
  exact Option.isSome_iff_exists.mp h2


/-- Two stores with pointwise equal Maps are equal. -/
theorem storeExt (a b : SessionStoreState)
    (h1 : ∀ k, a.sessions k = b.sessions k) (h2 : ∀ k, a.messages k = b.messages k) :
    a = b := by
  cases a
  cases b
  simp only [SessionStoreState.mk.injEq]
  exact ⟨funext h1, funext h2⟩

/-- Unfolding `saveMessage` when the session is absent: the session is
created and the message lands alone in its sequence. -/
theorem saveMessage_eq_absent (st : SessionStoreState) (s : String) (a : MessageAuthor)
    (c : String) (topic : Option String) (f : String) (now : Nat)
    (h : st.sessions s = none) :
    saveMessage st s a c topic f now =
      .ok (⟨fun k => if k = s then
              some { id := s, topic := topic.getD "Untitled Decision", createdAt := now }
            else st.sessions k,
            fun k => if k = s then
              some [{ id := f, sessionId := s, author := a, content := c, createdAt := now }]
            else st.messages k⟩,
        { id := f, sessionId := s, author := a, content := c, createdAt := now }) := by
  simp only [saveMessage, SessionStore.getSession, SessionStore.createSession,
    SessionStore.addMessage, h, Option.isNone_none, if_true, ite_true, List.nil_append]
  refine congrArg Except.ok (Prod.ext ?_ rfl)
  refine storeExt _ _ (fun k => rfl) (fun k => ?_)
  by_cases hk : k = s <;> simp [hk]

/-- Unfolding `saveMessage` when the session is present: the message is
appended to the stored sequence. -/
theorem saveMessage_eq_present (st : SessionStoreState) (s : String) (a : MessageAuthor)
    (c : String) (topic : Option String) (f : String) (now : Nat)
    (sess : Session) (ms : List Message)
    (h : st.sessions s = some sess) (hm : st.messages s = some ms) :
    saveMessage st s a c topic f now =
      .ok (⟨st.sessions,
            fun k => if k = s then
              some (ms ++ [{ id := f, sessionId := s, author := a, content := c, createdAt := now }])
            else st.messages k⟩,
        { id := f, sessionId := s, author := a, content := c, createdAt := now }) := by
  simp only [saveMessage, SessionStore.getSession, SessionStore.createSession,
    SessionStore.addMessage, h, hm, Option.isNone_some, Bool.false_eq_true,
    if_false, ite_false, Except.map]

/-- C6: for every sessionId, author, content and optional topic, on a
key-synchronised store `saveMessage` succeeds and returns the stored
Message built from the fresh id and the current time; when the session did
not exist it is created with the given topic (or the fixed default label
"Untitled Decision" when the topic is absent) and an existing session
record is kept unchanged; the session's history grows by exactly that one
message at the end (so its length grows by exactly one), every other
session is untouched, and when the generated id is fresh the new message
is the unique one carrying it. -/
theorem saveMessage_appends_exactly_one (st : SessionStoreState) (s : String)
    (a : MessageAuthor) (c : String) (topic : Option String) (f : String) (now : Nat)
    (hwf : WF st) :
    ∃ st2,
      saveMessage st s a c topic f now =
        .ok (st2, { id := f, sessionId := s, author := a, content := c, createdAt := now }) ∧
      getConversationHistory st2 s =
        getConversationHistory st s ++
          [{ id := f, sessionId := s, author := a, content := c, createdAt := now }] ∧
      (getConversationHistory st2 s).length = (getConversationHistory st s).length + 1 ∧
      (st.sessions s = none →
        st2.sessions s =
          some { id := s, topic := topic.getD "Untitled Decision", createdAt := now }) ∧
      (∀ sess, st.sessions s = some sess → st2.sessions s = some sess) ∧
      (∀ k, k = s ∨ (st2.sessions k = st.sessions k ∧ st2.messages k = st.messages k)) ∧
      ((∀ m0 ∈ getConversationHistory st s, m0.id ≠ f) →
        ((getConversationHistory st2 s).filter (fun m0 => m0.id = f)).length = 1) := by
  cases h : st.sessions s with
  | none =>
    have hm : st.messages s = none := hwf.messages_none h
    refine ⟨_, saveMessage_eq_absent st s a c topic f now h, ?_, ?_, ?_, ?_, ?_, ?_⟩
    · simp [getConversationHistory, SessionStore.getMessages, hm]
    · simp [getConversationHistory, SessionStore.getMessages, hm]
    · intro _
      simp
    · intro sess hs
      simp at hs
    · intro k
      by_cases hk : k = s
      · exact Or.inl hk
      · exact Or.inr (by simp [hk])
    · intro _
      simp [getConversationHistory, SessionStore.getMessages]
  | some sess =>
    obtain ⟨ms, hm⟩ := hwf.messages_some h
    refine ⟨_, saveMessage_eq_present st s a c topic f now sess ms h hm, ?_, ?_, ?_, ?_, ?_, ?_⟩
    · simp [getConversationHistory, SessionStore.getMessages, hm]
    · simp [getConversationHistory, SessionStore.getMessages, hm]
    · intro h0
      simp at h0
    · intro sess' hs
      exact h.trans hs
    · intro k
      by_cases hk : k = s
      · exact Or.inl hk
      · exact Or.inr (by simp [hk])
    · intro hfresh
      have hfr : ∀ m0 ∈ ms, m0.id ≠ f := by
        intro m0 hmem
        exact hfresh m0 (by simp [getConversationHistory, SessionStore.getMessages, hm, hmem])
      have hnil : ms.filter (fun m0 => m0.id = f) = [] :=
        List.filter_eq_nil_iff.mpr (fun m0 hmem => by simpa using hfr m0 hmem)
      simp [getConversationHistory, SessionStore.getMessages, hm, List.filter_append, hnil]

/-- C6 witness: saving the first message of a new session "s1" with topic
"Moving" on the empty store creates the session and leaves a one-message
history. -/
theorem saveMessage_appends_exactly_one_witness :
    ∃ st2,
      saveMessage SessionStoreState.empty "s1" MessageAuthor.partner_a "Should we move?"
          (some "Moving") "m1" 0 =
        .ok (st2, { id := "m1", sessionId := "s1", author := MessageAuthor.partner_a,
                    content := "Should we move?", createdAt := 0 }) ∧
      getConversationHistory st2 "s1" =
        getConversationHistory SessionStoreState.empty "s1" ++
          [{ id := "m1", sessionId := "s1", author := MessageAuthor.partner_a,
             content := "Should we move?", createdAt := 0 }] ∧
      (getConversationHistory st2 "s1").length =
        (getConversationHistory SessionStoreState.empty "s1").length + 1 ∧
      (SessionStoreState.empty.sessions "s1" = none →
        st2.sessions "s1" =
          some { id := "s1", topic := (some "Moving").getD "Untitled Decision", createdAt := 0 }) ∧
      (∀ sess, SessionStoreState.empty.sessions "s1" = some sess →
        st2.sessions "s1" = some sess) ∧
      (∀ k, k = "s1" ∨ (st2.sessions k = SessionStoreState.empty.sessions k ∧
        st2.messages k = SessionStoreState.empty.messages k)) ∧
      ((∀ m0 ∈ getConversationHistory SessionStoreState.empty "s1", m0.id ≠ "m1") →
        ((getConversationHistory st2 "s1").filter (fun m0 => m0.id = "m1")).length = 1) :=
  saveMessage_appends_exactly_one SessionStoreState.empty "s1" MessageAuthor.partner_a
    "Should we move?" (some "Moving") "m1" 0 (fun _ => Iff.rfl)

-- ─── C7 / C10: request shaping ─────────────────────────────────────────────

/-- C7: the request-shaping function maps every message to exactly one turn
(the two lists correspond element-wise, so lengths agree) with a two-valued
role determined by authorship: a message authored by the model (author
"ai") becomes an assistant turn with its content unchanged, and each human
author becomes a user turn whose content carries that human's identity as
a literal "Partner A: " or "Partner B: " label before the original
content. -/
theorem formatMessagesForClaude_roles (msgs : List Message) :
    List.Forall₂
      (fun msg turn =>
        (msg.author = MessageAuthor.ai →
          turn = { role := Role.assistant, content := msg.content }) ∧
        (msg.author = MessageAuthor.partner_a →
          turn = { role := Role.user, content := "Partner A: " ++ msg.content }) ∧
        (msg.author = MessageAuthor.partner_b →
          turn = { role := Role.user, content := "Partner B: " ++ msg.content }))
      msgs (formatMessagesForClaude msgs) := by
  induction msgs with
  | nil => exact List.Forall₂.nil
  | cons hd tl ih =>
    simp only [formatMessagesForClaude, List.map_cons]
    refine List.Forall₂.cons ?_ (by simpa [formatMessagesForClaude] using ih)
    refine ⟨fun h => by simp [h], fun h => by simp [h], fun h => ?_⟩
    have hne : hd.author ≠ MessageAuthor.ai := by simp [h]
    have hne2 : hd.author ≠ MessageAuthor.partner_a := by simp [h]
    simp [h]

/-- C10: the reserved non-human author "system_summary" is also sent to the
model as a user turn labelled as the second participant: its content is
prefixed with the literal "Partner B: " label, exactly like a partner_b
message, because the label branch treats every author other than "ai" and
"partner_a" as Partner B. -/
theorem formatMessagesForClaude_system_summary (msgs : List Message) :
    List.Forall₂
      (fun msg turn =>
        msg.author = MessageAuthor.system_summary →
          turn = { role := Role.user, content := "Partner B: " ++ msg.content })
      msgs (formatMessagesForClaude msgs) := by
  induction msgs with
  | nil => exact List.Forall₂.nil
  | cons hd tl ih =>
    simp only [formatMessagesForClaude, List.map_cons]
    refine List.Forall₂.cons (fun h => by simp [h]) (by simpa [formatMessagesForClaude] using ih)

-- ─── C4: a failed model call aborts the turn cleanly ───────────────────────

/-- C4: when the model invocation inside `getAIResponse` raises an error,
the turn aborts with that error and persists nothing: the conversation
store and the usage store are exactly what they were before the call (in
particular the session's history and its usage records are unchanged), and
the per-session lock entry is released by the finally branch. -/
theorem getAIResponse_model_error_aborts (st : ServerState) (s e f : String) (now : Nat) :
    (getAIResponse st s (.error e) f now).1.store = st.store ∧
    (getAIResponse st s (.error e) f now).1.usage = st.usage ∧
    getConversationHistory (getAIResponse st s (.error e) f now).1.store s =
      getConversationHistory st.store s ∧
    getSessionUsageRecords (getAIResponse st s (.error e) f now).1.usage s =
      getSessionUsageRecords st.usage s ∧
    (getAIResponse st s (.error e) f now).1.locks s = false ∧
    (getAIResponse st s (.error e) f now).2 = .error (.modelCallFailed e) := by
  refine ⟨rfl, rfl, rfl, rfl, ?_, rfl⟩
  simp [getAIResponse]

-- ─── C8: first text block, empty-reply degradation ─────────────────────────

/-- `find?` for the text predicate returns the first text-typed block. -/
theorem find_text_first (pre : List ContentBlock) (blk : ContentBlock)
    (post : List ContentBlock) (hty : blk.type = "text")
    (hpre : ∀ b ∈ pre, b.type ≠ "text") :
    (pre ++ blk :: post).find? (fun b => b.type = "text") = some blk := by
  induction pre with
  | nil => simp [List.find?_cons, hty]
  | cons hd tl ih =>
    have h1 : hd.type ≠ "text" := hpre hd (by simp)
    have h2 : ∀ b ∈ tl, b.type ≠ "text" := fun b hb => hpre b (by simp [hb])
    simp [List.find?_cons, h1, ih h2]

/-- `extractText` returns the text of the first text-typed block. -/
theorem extractText_first (response : ModelResponse) (pre : List ContentBlock)
    (blk : ContentBlock) (post : List ContentBlock)
    (hsplit : response.content = pre ++ blk :: post) (hty : blk.type = "text")
    (hpre : ∀ b ∈ pre, b.type ≠ "text") :
    extractText response = blk.text := by
  unfold extractText
  rw [hsplit, find_text_first pre blk post hty hpre]

/-- `extractText` degrades to the empty string when no block is text-typed. -/
theorem extractText_none (response : ModelResponse)
    (h : ∀ b ∈ response.content, b.type ≠ "text") :
    extractText response = "" := by
  unfold extractText
  have : response.content.find? (fun b => b.type = "text") = none := by
    rw [List.find?_eq_none]
    intro b hb
    simpa using h b hb
  rw [this]

/-- C8: the reply text used by `getAIResponse` is the text of the first
text-typed content block of the model response; when no text-typed block
exists, the reply text degrades to the empty string and the turn still
completes normally: the call returns ok, an empty ai message is appended
to the session's history, and a usage record is still appended. -/
theorem getAIResponse_uses_first_text_block (st : ServerState) (s : String)
    (response : ModelResponse) (f : String) (now : Nat) (hwf : WF st.store) :
    (∀ pre blk post,
      response.content = pre ++ blk :: post → blk.type = "text" →
      (∀ b ∈ pre, b.type ≠ "text") →
      (getAIResponse st s (.ok response) f now).2 =
        .ok { content := blk.text, inputTokens := response.usage.input_tokens,
              outputTokens := response.usage.output_tokens }) ∧
    ((∀ b ∈ response.content, b.type ≠ "text") →
      (getAIResponse st s (.ok response) f now).2 =
        .ok { content := "", inputTokens := response.usage.input_tokens,
              outputTokens := response.usage.output_tokens } ∧
      getConversationHistory (getAIResponse st s (.ok response) f now).1.store s =
        getConversationHistory st.store s ++
          [{ id := f, sessionId := s, author := MessageAuthor.ai, content := "",
             createdAt := now }] ∧
      getSessionUsageRecords (getAIResponse st s (.ok response) f now).1.usage s =
        getSessionUsageRecords st.usage s ++
          [{ sessionId := s, inputTokens := response.usage.input_tokens,
             outputTokens := response.usage.output_tokens, model := AI_MODEL,
             createdAt := now }]) := by
  have hsave : ∀ content : String, ∃ st2,
      saveMessage st.store s MessageAuthor.ai content none f now =
        .ok (st2, { id := f, sessionId := s, author := MessageAuthor.ai,
                    content := content, createdAt := now }) ∧
      st2.messages s = some (getConversationHistory st.store s ++
        [{ id := f, sessionId := s, author := MessageAuthor.ai,
           content := content, createdAt := now }]) := by
    intro content
    cases h : st.store.sessions s with
    | none =>
      refine ⟨_, saveMessage_eq_absent st.store s MessageAuthor.ai content none f now h, ?_⟩
      simp [getConversationHistory, SessionStore.getMessages, hwf.messages_none h]
    | some sess =>
      obtain ⟨ms, hm⟩ := hwf.messages_some h
      refine ⟨_, saveMessage_eq_present st.store s MessageAuthor.ai content none f now sess ms h hm, ?_⟩
      simp [getConversationHistory, SessionStore.getMessages, hm]
  constructor
  · intro pre blk post hsplit hty hpre
    have hext := extractText_first response pre blk post hsplit hty hpre
    obtain ⟨st2, hsv, hmsg⟩ := hsave blk.text
    simp [getAIResponse, hext, hsv]
  · intro hnone
    have hext := extractText_none response hnone
    obtain ⟨st2, hsv, hmsg⟩ := hsave ""
    refine ⟨?_, ?_, ?_⟩
    · simp [getAIResponse, hext, hsv]
    · simp [getAIResponse, hext, hsv, getConversationHistory, SessionStore.getMessages, hmsg]
    · simp [getAIResponse, hext, hsv, getSessionUsageRecords, recordUsage]

/-- C8 witness: on a fresh server state, a model reply whose only content
block is tool_use-typed is recorded as an empty message and still records
usage. -/
theorem getAIResponse_uses_first_text_block_witness :
    (∀ pre blk post,
      ([{ type := "tool_use", text := "x" }] : List ContentBlock) = pre ++ blk :: post →
      blk.type = "text" →
      (∀ b ∈ pre, b.type ≠ "text") →
      (getAIResponse ⟨SessionStoreState.empty, UsageState.empty, fun _ => false⟩ "s1"
        (.ok { content := [{ type := "tool_use", text := "x" }],
               usage := { input_tokens := 5, output_tokens := 7 } }) "m1" 0).2 =
        .ok { content := blk.text, inputTokens := 5, outputTokens := 7 }) ∧
    ((∀ b ∈ ([{ type := "tool_use", text := "x" }] : List ContentBlock), b.type ≠ "text") →
      (getAIResponse ⟨SessionStoreState.empty, UsageState.empty, fun _ => false⟩ "s1"
        (.ok { content := [{ type := "tool_use", text := "x" }],
               usage := { input_tokens := 5, output_tokens := 7 } }) "m1" 0).2 =
        .ok { content := "", inputTokens := 5, outputTokens := 7 } ∧
      getConversationHistory
        (getAIResponse ⟨SessionStoreState.empty, UsageState.empty, fun _ => false⟩ "s1"
          (.ok { content := [{ type := "tool_use", text := "x" }],
                 usage := { input_tokens := 5, output_tokens := 7 } }) "m1" 0).1.store "s1" =
        getConversationHistory SessionStoreState.empty "s1" ++
          [{ id := "m1", sessionId := "s1", author := MessageAuthor.ai, content := "",
             createdAt := 0 }] ∧
      getSessionUsageRecords
        (getAIResponse ⟨SessionStoreState.empty, UsageState.empty, fun _ => false⟩ "s1"
          (.ok { content := [{ type := "tool_use", text := "x" }],
                 usage := { input_tokens := 5, output_tokens := 7 } }) "m1" 0).1.usage "s1" =
        getSessionUsageRecords UsageState.empty "s1" ++
          [{ sessionId := "s1", inputTokens := 5, outputTokens := 7, model := AI_MODEL,
             createdAt := 0 }]) :=
  getAIResponse_uses_first_text_block
    ⟨SessionStoreState.empty, UsageState.empty, fun _ => false⟩ "s1"
    { content := [{ type := "tool_use", text := "x" }],
      usage := { input_tokens := 5, output_tokens := 7 } } "m1" 0 (fun _ => Iff.rfl)

-- ─── C1: the lock protocol admits two calls concurrently ───────────────────

/-- C1: the claim (and the source's own comments) say that for a single
session at most one `getAIResponse` call is past lock acquisition at any
moment.  The protocol of AIService.ts violates this with three concurrent
calls: the first acquires the Map entry; the second and third both read
that same promise and await it; when the first call's finally branch
resolves it, both waiters are admitted — each creates its own promise
without re-checking the Map — so two calls are simultaneously inside the
critical section.  The trace below is a valid interleaving of `LockStep`
from the three-call initial state to a state whose critical-section count
is two. -/
theorem lock_admits_two_past_acquisition :
    Relation.ReflTransGen LockStep threeCalls raceState ∧ ¬ MutualExclusion raceState := by
  constructor
  · have h01 : LockStep threeCalls
        { tasks := [TaskPC.critical 0, TaskPC.start, TaskPC.start],
          sessionLock := some 0, resolved := [], nextLock := 1 } :=
      LockStep.checkFree threeCalls 0 rfl rfl
    have h12 : LockStep
        { tasks := [TaskPC.critical 0, TaskPC.start, TaskPC.start],
          sessionLock := some 0, resolved := [], nextLock := 1 }
        { tasks := [TaskPC.critical 0, TaskPC.waiting 0, TaskPC.start],
          sessionLock := some 0, resolved := [], nextLock := 1 } :=
      LockStep.checkBusy _ 1 0 rfl rfl
    have h23 : LockStep
        { tasks := [TaskPC.critical 0, TaskPC.waiting 0, TaskPC.start],
          sessionLock := some 0, resolved := [], nextLock := 1 }
        { tasks := [TaskPC.critical 0, TaskPC.waiting 0, TaskPC.waiting 0],
          sessionLock := some 0, resolved := [], nextLock := 1 } :=
      LockStep.checkBusy _ 2 0 rfl rfl
    have h34 : LockStep
        { tasks := [TaskPC.critical 0, TaskPC.waiting 0, TaskPC.waiting 0],
          sessionLock := some 0, resolved := [], nextLock := 1 }
        { tasks := [TaskPC.done, TaskPC.waiting 0, TaskPC.waiting 0],
          sessionLock := none, resolved := [0], nextLock := 1 } :=
      LockStep.finish _ 0 0 rfl
    have h45 : LockStep
        { tasks := [TaskPC.done, TaskPC.waiting 0, TaskPC.waiting 0],
          sessionLock := none, resolved := [0], nextLock := 1 }
        { tasks := [TaskPC.done, TaskPC.critical 1, TaskPC.waiting 0],
          sessionLock := some 1, resolved := [0], nextLock := 2 } :=
      LockStep.resume _ 1 0 rfl (by decide)
    have h56 : LockStep
        { tasks := [TaskPC.done, TaskPC.critical 1, TaskPC.waiting 0],
          sessionLock := some 1, resolved := [0], nextLock := 2 }
        raceState :=
      LockStep.resume _ 2 0 rfl (by decide)
    exact Relation.ReflTransGen.head h01 (Relation.ReflTransGen.head h12
      (Relation.ReflTransGen.head h23 (Relation.ReflTransGen.head h34
        (Relation.ReflTransGen.head h45 (Relation.ReflTransGen.head h56
          Relation.ReflTransGen.refl)))))
  · unfold MutualExclusion
    decide
